import Mathlib

/-!
Verification development for the PDF-to-PowerPoint converter (`src/ppt_gen.py`).

The Python file's logic is shallowly embedded here:

* `parse_gemini_structure` (ppt_gen.py lines 99-110): splits the model reply on
  the regex `\*\*Slide \d+:.*?\*\*`, and per header-delimited fragment extracts
  a title via `re.search(r'\*\*Title:\*\*\s*(.*)')` and bullets via
  `re.findall(r'\*\s+(.*)')`.  The relevant Python regex semantics
  (leftmost non-overlapping matches, greedy `\s+`/`\s*`/`(.*)`, non-greedy
  `.*?`, `.` not matching a newline) are implemented character by character
  on `List Char`.  Character classes use their ASCII meaning (`\d` = `0-9`,
  `\s` = space, tab, newline, carriage return, form feed, vertical tab),
  which is exact for ASCII input.
* `create_presentation` (lines 112-150): deck assembly, modelled as the list
  of slides' textual content; the wall-clock date used for the title slide's
  subtitle is an explicit parameter.
* `extract_text_from_pdf` (lines 42-71): the two extraction strategies are
  modelled by the per-page texts they yield (`none` for a `None` page and for
  pages lost to a swallowed library exception, which only truncates the page
  list).
* the temp-file lifecycle of `create_presentation`/`main`
  (lines 148-150 and 192-206), modelled as its effect on a set of live paths.
-/

namespace PptGen

def MAX_SLIDES : Nat := 10
def PROCESSING_CHUNK_SIZE : Nat := 15000
def MIN_CONTENT_LENGTH : Nat := 100

/-- Python's `\s` character class / `str.strip()` whitespace, ASCII range. -/
def pyIsSpace (c : Char) : Bool :=
  c = ' ' || c = '\t' || c = '\n' || c = '\r' || c = '\x0b' || c = '\x0c'

/-- Python `str.strip`: remove the characters satisfying `p` from both ends. -/
def stripEnds (p : Char → Bool) (cs : List Char) : List Char :=
  ((cs.dropWhile p).reverse.dropWhile p).reverse

/-- The character set of `bullet.strip("-•* ")` (ppt_gen.py line 142). -/
def isGlyph (c : Char) : Bool :=
  c = '-' || c = '•' || c = '*' || c = ' '

/-- `bullet.strip("-•* ").strip()` — how `create_presentation` renders one
bullet into a paragraph (ppt_gen.py line 142). -/
def renderBullet (s : String) : String :=
  String.mk (stripEnds pyIsSpace (stripEnds isGlyph s.data))

/-- Consume the literal characters `ps` from the front of `cs`. -/
def dropPre : List Char → List Char → Option (List Char)
  | [], cs => some cs
  | _ :: _, [] => none
  | p :: ps, c :: cs => if c = p then dropPre ps cs else none

/-- `ps` occurs at the front of `cs` (Boolean form of `dropPre`). -/
def isPreB : List Char → List Char → Bool
  | [], _ => true
  | _ :: _, [] => false
  | p :: ps, c :: cs => c = p && isPreB ps cs

/-- `needle` occurs as a contiguous substring of the argument. -/
def occursIn (needle : List Char) : List Char → Bool
  | [] => needle.isEmpty
  | c :: cs => isPreB needle (c :: cs) || occursIn needle cs

/-- The `.*?\*\*` tail of the slide-header regex: consume the minimal run of
non-newline characters up to and including the first `**`; returns the
consumed characters and the rest. -/
def dotStarsMin : List Char → Option (List Char × List Char)
  | [] => none
  | [_] => none
  | c1 :: c2 :: rest =>
    if c1 = '*' ∧ c2 = '*' then some (['*', '*'], rest)
    else if c1 = '\n' then none
    else
      match dotStarsMin (c2 :: rest) with
      | some (m, r) => some (c1 :: m, r)
      | none => none

/-- Match the header regex `\*\*Slide \d+:.*?\*\*` at the head of `cs`;
returns the matched characters and the rest.  (`\d+` is greedy, and any
backtracking of it fails since the following `:` is not a digit, so the
maximal digit run must be followed by `:`.) -/
def matchHeaderAt (cs : List Char) : Option (List Char × List Char) :=
  match dropPre "**Slide ".data cs with
  | none => none
  | some r1 =>
    if r1.takeWhile Char.isDigit = [] then none
    else
      match r1.dropWhile Char.isDigit with
      | ':' :: r3 =>
        match dotStarsMin r3 with
        | some (m2, r4) =>
          some ("**Slide ".data ++ r1.takeWhile Char.isDigit ++ ':' :: m2, r4)
        | none => none
      | _ => none

/-- One simultaneous left-to-right scan implementing both
`re.split(r'\*\*Slide \d+:.*?\*\*', s)` (first component: the fragments
between matches) and `re.findall` of the same pattern (second component:
the matches), as in ppt_gen.py lines 100-101.  `acc` holds the reversed
characters of the fragment currently being accumulated.  The `fuel`
argument only makes the recursion structural: each step consumes at least
one character, so any `fuel ≥ cs.length` computes the full scan, and the
exhausted-fuel result coincides with the empty-input result. -/
def scanHeadersF : Nat → List Char → List Char → List (List Char) × List (List Char)
  | 0, _, acc => ([acc.reverse], [])
  | fuel + 1, cs, acc =>
    match matchHeaderAt cs with
    | some (m, r) =>
      let p := scanHeadersF fuel r []
      (acc.reverse :: p.1, m :: p.2)
    | none =>
      match cs with
      | [] => ([acc.reverse], [])
      | c :: rest => scanHeadersF fuel rest (c :: acc)

def scanHeaders (cs acc : List Char) : List (List Char) × List (List Char) :=
  scanHeadersF cs.length cs acc

/-- `re.split(r'\*\*Slide \d+:.*?\*\*', s)` (ppt_gen.py line 100). -/
def reSplitHeaders (s : String) : List String :=
  (scanHeaders s.data []).1.map String.mk

/-- `re.findall(r'\*\*Slide \d+:.*?\*\*', s)` (ppt_gen.py line 101). -/
def reFindHeaders (s : String) : List String :=
  (scanHeaders s.data []).2.map String.mk

/-- Match `\*\*Title:\*\*\s*(.*)` at the head of `cs`; returns the text
captured by `(.*)` — the maximal whitespace run after the label is skipped
(greedy `\s*`, which does cross newlines), then the maximal run of
non-newline characters is captured.  After the literal label the rest of
the pattern always matches, so the only failure is a missing label. -/
def matchTitleAt (cs : List Char) : Option (List Char) :=
  match dropPre "**Title:**".data cs with
  | none => none
  | some r =>
    some ((r.dropWhile pyIsSpace).takeWhile (fun c => !(c == '\n')))

/-- `re.search(r'\*\*Title:\*\*\s*(.*)', content)` (ppt_gen.py line 106):
the capture group of the leftmost match, if any. -/
def searchTitle : List Char → Option (List Char)
  | [] => none
  | c :: rest =>
    match matchTitleAt (c :: rest) with
    | some cap => some cap
    | none => searchTitle rest

/-- Match `\*\s+(.*)` at the head of `cs`; returns the capture group and the
rest after the whole match.  `\s+` is greedy (and crosses newlines), then
`(.*)` greedily captures to the end of the line. -/
def matchBulletAt : List Char → Option (List Char × List Char)
  | [] => none
  | c :: cs =>
    if c = '*' then
      match cs.takeWhile pyIsSpace with
      | [] => none
      | _ :: _ =>
        some ((cs.dropWhile pyIsSpace).takeWhile (fun x => !(x == '\n')),
              (cs.dropWhile pyIsSpace).dropWhile (fun x => !(x == '\n')))
    else none

/-- `re.findall(r'\*\s+(.*)', content)` (ppt_gen.py line 108): the capture
groups of the leftmost non-overlapping matches, scanning left to right.
As with `scanHeadersF`, `fuel` only makes the recursion structural. -/
def findBulletsF : Nat → List Char → List (List Char)
  | 0, _ => []
  | fuel + 1, cs =>
    match matchBulletAt cs with
    | some (cap, r) => cap :: findBulletsF fuel r
    | none =>
      match cs with
      | [] => []
      | _ :: rest => findBulletsF fuel rest

def findBullets (cs : List Char) : List (List Char) :=
  findBulletsF cs.length cs

/-- ppt_gen.py lines 99-110 (`parse_gemini_structure`): split the reply on
the slide-header pattern; for the fragment following header `i` take the
`Title:` capture (whitespace-stripped) or the placeholder `"Slide {i+2}"`,
and collect the bullet captures. -/
def parse_gemini_structure (slide_structure : String) : List (String × List String) :=
  (List.range (reFindHeaders slide_structure).length).map fun i =>
    let content := (reSplitHeaders slide_structure).getD (i + 1) ""
    let title :=
      match searchTitle content.data with
      | some cap => String.mk (stripEnds pyIsSpace cap)
      | none => "Slide " ++ toString (i + 2)
    (title, (findBullets content.data).map String.mk)

/-- The textual content of one rendered slide. -/
structure Slide where
  title : String
  body : List String
deriving DecidableEq, Repr

/-- The records `create_presentation` renders: the parsed records, or the
single fallback record when none were parsed (ppt_gen.py lines 124-128). -/
def effectiveRecords (slide_structure : String) : List (String × List String) :=
  if (parse_gemini_structure slide_structure).isEmpty then
    [("Introduction", ["Key points missing from AI output"])]
  else parse_gemini_structure slide_structure

/-- ppt_gen.py lines 112-147 (`create_presentation`), modelled as the list of
slides' textual content.  `timestamp` is the `datetime.now().strftime('%d %B %Y')`
string observed by the call (line 122).  A title slide is followed by one
content slide per effective record, capped at `MAX_SLIDES` (line 130); each
bullet is rendered by `bullet.strip("-•* ").strip()` (line 142). -/
def create_presentation (ppt_title slide_structure timestamp : String) : List Slide :=
  ⟨ppt_title, ["Generated on " ++ timestamp]⟩ ::
    ((effectiveRecords slide_structure).take MAX_SLIDES).map
      (fun r => Slide.mk r.1 (r.2.map renderBullet))

/-- The page loop of `extract_text_from_pdf` (ppt_gen.py lines 47-52 and
59-65): append `"\n\n[Page i+1]\n" ++ pageText` for each truthy page text,
stopping once the accumulated length exceeds `PROCESSING_CHUNK_SIZE`.
A library exception inside the loop is swallowed (lines 53-54, 66-67) and
merely cuts the page list short, so a strategy is modelled by the list of
page texts it yields before finishing or raising (`none` = `None` page). -/
def addPages : List (Option String) → Nat → String → String
  | [], _, text => text
  | p :: ps, i, text =>
    let text2 :=
      match p with
      | some pt => if pt.isEmpty then text else
          text ++ "\n\n[Page " ++ toString (i + 1) ++ "]\n" ++ pt
      | none => text
    if PROCESSING_CHUNK_SIZE < text2.length then text2
    else addPages ps (i + 1) text2

/-- The text accumulated by `extract_text_from_pdf` (ppt_gen.py lines 43-67,
the value of `text` at line 69): the pdfplumber strategy's yield, to which
the PyPDF2 strategy's yield is appended only when the former is shorter than
`MIN_CONTENT_LENGTH` (line 56). -/
def accumulatedText (plumberPages pypdfPages : List (Option String)) : String :=
  if (addPages plumberPages 0 "").length < MIN_CONTENT_LENGTH then
    addPages pypdfPages 0 (addPages plumberPages 0 "")
  else addPages plumberPages 0 ""

/-- ppt_gen.py lines 42-71 (`extract_text_from_pdf`): accumulate text with
the two strategies, then succeed iff the result is strictly longer than
`MIN_CONTENT_LENGTH` (lines 69-71). -/
def extract_text_from_pdf (plumberPages pypdfPages : List (Option String)) :
    Option String × Option String :=
  if MIN_CONTENT_LENGTH < (accumulatedText plumberPages pypdfPages).length then
    (some (accumulatedText plumberPages pypdfPages), none)
  else (none, some "Failed to extract sufficient text (document may be scanned)")

/-- Filesystem effect of `create_presentation` (ppt_gen.py lines 148-153):
`NamedTemporaryFile(delete=False)` creates the temp file unconditionally;
the function returns its path when `prs.save` succeeds and `None` when the
exception handler fires — the file itself is left behind in both cases. -/
def create_presentation_effects (saveOk : Bool) (tmpPath : String) :
    List String × Option String :=
  ([tmpPath], if saveOk then some tmpPath else none)

/-- Filesystem effect of the generate-button handler (ppt_gen.py lines
192-206): on a returned path, `open(...)`/`read()` may raise (`readOk`);
only after a successful read does `os.unlink` run, itself wrapped in a
bare `except: pass` (`unlinkOk`).  Returns the temp files still existing
afterwards. -/
def generate_button_flow (saveOk readOk unlinkOk : Bool) (tmpPath : String) :
    List String :=
  let r := create_presentation_effects saveOk tmpPath
  match r.2 with
  | none => r.1
  | some p => if readOk then (if unlinkOk then r.1.erase p else r.1) else r.1

/-- A model reply containing 15 slide headers. -/
def s15 : String :=
  "**Slide 1: A****Slide 2: A****Slide 3: A****Slide 4: A****Slide 5: A**" ++
  "**Slide 6: A****Slide 7: A****Slide 8: A****Slide 9: A****Slide 10: A**" ++
  "**Slide 11: A****Slide 12: A****Slide 13: A****Slide 14: A****Slide 15: A**"

/-- A fragment made of one `"* "` bullet line per body, as the generation
prompt requests (ppt_gen.py lines 88-90). -/
def bulletLines : List String → String
  | [] => ""
  | b :: bs => "* " ++ b ++ "\n" ++ bulletLines bs

/-- A model reply following exactly the markup requested by the prompt of
`generate_slide_structure` (ppt_gen.py lines 81-92): bolded `Slide N:`
headers, bolded `Title:`/`Subtitle:`/`Bullet Points:` labels as `* ` lines,
and indented `* ` bullet items. -/
def conformingReply : String :=
  "**Slide 1: [Title Slide]**\n" ++
  "* **Title:** \"Business Report\"\n" ++
  "* **Subtitle:** \"[1-line summary]\"\n\n" ++
  "**Slide 2: [Introduction]**\n" ++
  "* **Title:** \"Intro title\"\n" ++
  "* **Bullet Points:**\n" ++
  "    * Bullet 1\n" ++
  "    * Bullet 2\n\n" ++
  "**Slide 3: [Findings]**\n" ++
  "* **Title:** \"Findings\"\n" ++
  "* **Bullet Points:**\n" ++
  "    * Revenue grew\n" ++
  "    * Costs fell\n\n" ++
  "**Slide 4: [Risks]**\n" ++
  "* **Title:** \"Risks\"\n" ++
  "* **Bullet Points:**\n" ++
  "    * Churn\n\n" ++
  "**Slide 5: [Conclusion]**\n" ++
  "* **Title:** \"Conclusion\"\n" ++
  "* **Bullet Points:**\n" ++
  "    * Invest\n"

/-! ### Helper lemmas -/

theorem dropPre_length : ∀ {ps cs r : List Char},
    dropPre ps cs = some r → r.length + ps.length = cs.length := by
  intro ps
  induction ps with
  | nil =>
    intro cs r h
    simp [dropPre] at h
    simp [h]
  | cons p ps ih =>
    intro cs r h
    cases cs with
    | nil => simp [dropPre] at h
    | cons c cs =>
      by_cases hc : c = p
      · simp [dropPre, hc] at h
        have := ih h
        simp [List.length_cons]
        omega
      · simp [dropPre, hc] at h

theorem length_dropWhile_le (p : Char → Bool) (l : List Char) :
    (l.dropWhile p).length ≤ l.length := by
  conv_rhs => rw [← List.takeWhile_append_dropWhile p l]
  rw [List.length_append]
  omega

theorem dotStarsMin_length : ∀ (cs : List Char) {m r : List Char},
    dotStarsMin cs = some (m, r) → r.length + m.length = cs.length ∧ 2 ≤ m.length := by
  intro cs
  induction cs with
  | nil => intro m r h; simp [dotStarsMin] at h
  | cons c1 cs ih =>
    intro m r h
    cases cs with
    | nil => simp [dotStarsMin] at h
    | cons c2 rest =>
      by_cases hstar : c1 = '*' ∧ c2 = '*'
      · simp [dotStarsMin, hstar] at h
        obtain ⟨hm, hr⟩ := h
        subst hm; subst hr
        simp
      · by_cases hnl : c1 = '\n'
        · simp [dotStarsMin, hstar, hnl] at h
        · simp only [dotStarsMin, if_neg hstar, if_neg hnl] at h
          cases hrec : dotStarsMin (c2 :: rest) with
          | none => rw [hrec] at h; simp at h
          | some pr =>
            rw [hrec] at h
            simp at h
            obtain ⟨hm, hr⟩ := h
            obtain ⟨h1, h2⟩ := ih (m := pr.1) (r := pr.2) (by rw [hrec])
            subst hm; subst hr
            simp only [List.length_cons] at h1 ⊢
            omega

theorem matchHeaderAt_shrink {cs m r : List Char}
    (h : matchHeaderAt cs = some (m, r)) : r.length < cs.length := by
  unfold matchHeaderAt at h
  cases hd : dropPre "**Slide ".data cs with
  | none => rw [hd] at h; simp at h
  | some r1 =>
    rw [hd] at h
    dsimp only at h
    have hlen1 : r1.length + 8 = cs.length := by
      have := dropPre_length hd
      simpa using this
    by_cases hds : r1.takeWhile Char.isDigit = []
    · simp [hds] at h
    · rw [if_neg hds] at h
      cases hr2 : r1.dropWhile Char.isDigit with
      | nil => rw [hr2] at h; simp at h
      | cons c r3 =>
        rw [hr2] at h
        by_cases hc : c = ':'
        · subst hc
          simp only at h
          cases hdot : dotStarsMin r3 with
          | none => rw [hdot] at h; simp at h
          | some pr =>
            rw [hdot] at h
            simp at h
            obtain ⟨_, hr⟩ := h
            have hd2 := dotStarsMin_length r3 (m := pr.1) (r := pr.2) (by rw [hdot])
            have hdw : (r1.dropWhile Char.isDigit).length ≤ r1.length :=
              length_dropWhile_le _ _
            rw [hr2] at hdw
            simp [List.length_cons] at hdw
            subst hr
            omega
        · simp [hc] at h

theorem matchBulletAt_shrink {cs cap r : List Char}
    (h : matchBulletAt cs = some (cap, r)) : r.length < cs.length := by
  cases cs with
  | nil => simp [matchBulletAt] at h
  | cons c cs =>
    by_cases hc : c = '*'
    · rw [matchBulletAt, if_pos hc] at h
      cases hw : cs.takeWhile pyIsSpace with
      | nil => rw [hw] at h; simp at h
      | cons w ws =>
        rw [hw] at h
        simp at h
        obtain ⟨_, hr⟩ := h
        have h1 : ((cs.dropWhile pyIsSpace).dropWhile (fun x => !(x == '\n'))).length ≤
            (cs.dropWhile pyIsSpace).length := length_dropWhile_le _ _
        have h2 : (cs.dropWhile pyIsSpace).length < cs.length := by
          cases cs with
          | nil => simp [List.takeWhile] at hw
          | cons d ds =>
            by_cases hd : pyIsSpace d
            · rw [List.dropWhile_cons_of_pos hd]
              have := length_dropWhile_le pyIsSpace ds
              simp only [List.length_cons]
              omega
            · rw [List.takeWhile_cons_of_neg hd] at hw
              simp at hw
        subst hr
        simp only [List.length_cons]
        omega
    · rw [matchBulletAt, if_neg hc] at h
      simp at h


theorem scanHeadersF_succ (fuel : Nat) (cs acc : List Char) :
    scanHeadersF (fuel + 1) cs acc =
      match matchHeaderAt cs with
      | some (m, r) =>
        (acc.reverse :: (scanHeadersF fuel r []).1, m :: (scanHeadersF fuel r []).2)
      | none =>
        match cs with
        | [] => ([acc.reverse], [])
        | c :: rest => scanHeadersF fuel rest (c :: acc) := rfl

theorem scanHeadersF_len : ∀ (fuel : Nat) (cs acc : List Char),
    (scanHeadersF fuel cs acc).1.length = (scanHeadersF fuel cs acc).2.length + 1 := by
  intro fuel
  induction fuel with
  | zero => intro cs acc; simp [scanHeadersF]
  | succ fuel ih =>
    intro cs acc
    rw [scanHeadersF_succ]
    cases hm : matchHeaderAt cs with
    | some pr =>
      cases pr with
      | mk m r => simpa using ih r []
    | none =>
      cases cs with
      | nil => simp
      | cons c rest => simpa using ih rest (c :: acc)

theorem reSplit_len (s : String) :
    (reSplitHeaders s).length = (reFindHeaders s).length + 1 := by
  unfold reSplitHeaders reFindHeaders scanHeaders
  simp [scanHeadersF_len]

theorem parse_length_eq (s : String) :
    (parse_gemini_structure s).length = (reFindHeaders s).length := by
  simp [parse_gemini_structure]

/-! ### C1 -/

/-- C1: for an input with exactly `K` matches of the bolded `"Slide N: ..."`
header pattern, `parse_gemini_structure` returns exactly `K` records, one per
header in header order (the split has `K + 1` fragments and record `i` is
built from fragment `i + 1`); for the empty string it returns `[]`. -/
theorem parse_count (s : String) (K : Nat) (hK : (reFindHeaders s).length = K) :
    (parse_gemini_structure s).length = K ∧
    (reSplitHeaders s).length = K + 1 ∧
    parse_gemini_structure "" = [] := by
  refine ⟨?_, ?_, by decide⟩
  · rw [parse_length_eq, hK]
  · rw [reSplit_len, hK]

theorem parse_count_witness :
    (reFindHeaders "**Slide 1: A****Slide 2: B**").length = 2 ∧
    (parse_gemini_structure "**Slide 1: A****Slide 2: B**").length = 2 ∧
    (reSplitHeaders "**Slide 1: A****Slide 2: B**").length = 3 := by
  have h := parse_count "**Slide 1: A****Slide 2: B**" 2 (by decide)
  exact ⟨by decide, h.1, h.2.1⟩

/-! ### C2 -/

theorem addPages_empty : ∀ (ps : List (Option String)) (i : Nat) (t : String),
    (∀ o ∈ ps, ∀ x, o = some x → x = "") → addPages ps i t = t := by
  intro ps
  induction ps with
  | nil => intro i t _; rfl
  | cons p ps ih =>
    intro i t hall
    have htail : ∀ o ∈ ps, ∀ x, o = some x → x = "" :=
      fun o ho x hx => hall o (List.mem_cons_of_mem _ ho) x hx
    have hstep : addPages (p :: ps) i t =
        if PROCESSING_CHUNK_SIZE < t.length then t else addPages ps (i + 1) t := by
      cases p with
      | none => rfl
      | some x =>
        have hx : x = "" := hall (some x) (List.mem_cons_self _ _) x rfl
        subst hx
        rfl
    rw [hstep]
    split
    · rfl
    · exact ih (i + 1) t htail

/-- C2 counterexample: a first strategy yielding a single 89-character page
produces an accumulated text of length exactly `MIN_CONTENT_LENGTH = 100`
(the `"\n\n[Page 1]\n"` marker adds 11 characters), yet
`extract_text_from_pdf` reports failure — the code succeeds only on
`len(text) > 100`, not `len(text) >= 100` as the claim states. -/
theorem extract_boundary_cex :
    MIN_CONTENT_LENGTH ≤
      (accumulatedText [some (String.mk (List.replicate 89 'a'))] []).length ∧
    (extract_text_from_pdf [some (String.mk (List.replicate 89 'a'))] []).1 = none ∧
    (extract_text_from_pdf [some (String.mk (List.replicate 89 'a'))] []).2 =
      some "Failed to extract sufficient text (document may be scanned)" := by
  refine ⟨by decide, by decide, by decide⟩

/-- C2 amended: `extract_text_from_pdf` succeeds (non-null text, null error)
exactly when the accumulated text is strictly longer than
`MIN_CONTENT_LENGTH` (100) characters — not `≥` —; otherwise it returns the
scanned-document failure reason; and when both strategies yield only empty
text the result is the insufficient-text failure. -/
theorem extract_success_iff (p1 p2 : List (Option String)) :
    (MIN_CONTENT_LENGTH < (accumulatedText p1 p2).length →
      extract_text_from_pdf p1 p2 = (some (accumulatedText p1 p2), none)) ∧
    ((accumulatedText p1 p2).length ≤ MIN_CONTENT_LENGTH →
      extract_text_from_pdf p1 p2 =
        (none, some "Failed to extract sufficient text (document may be scanned)")) ∧
    ((∀ o ∈ p1, ∀ x, o = some x → x = "") → (∀ o ∈ p2, ∀ x, o = some x → x = "") →
      extract_text_from_pdf p1 p2 =
        (none, some "Failed to extract sufficient text (document may be scanned)")) := by
  refine ⟨?_, ?_, ?_⟩
  · intro h
    unfold extract_text_from_pdf
    rw [if_pos h]
  · intro h
    unfold extract_text_from_pdf
    rw [if_neg (by omega)]
  · intro h1 h2
    have hacc : accumulatedText p1 p2 = "" := by
      unfold accumulatedText
      rw [addPages_empty p1 0 "" h1]
      rw [if_pos (by decide), addPages_empty p2 0 "" h2]
    unfold extract_text_from_pdf
    rw [hacc]
    rw [if_neg (by decide)]

theorem extract_success_iff_witness :
    MIN_CONTENT_LENGTH <
      (accumulatedText [some (String.mk (List.replicate 95 'b'))] []).length ∧
    extract_text_from_pdf [some (String.mk (List.replicate 95 'b'))] [] =
      (some (accumulatedText [some (String.mk (List.replicate 95 'b'))] []), none) ∧
    extract_text_from_pdf [some "", none] [none] =
      (none, some "Failed to extract sufficient text (document may be scanned)") := by
  refine ⟨by decide, ?_, ?_⟩
  · exact (extract_success_iff [some (String.mk (List.replicate 95 'b'))] []).1 (by decide)
  · exact (extract_success_iff [some "", none] [none]).2.2 (by decide) (by decide)

/-! ### C3 -/

/-- C3: with an empty outline (zero parsed records), the deck is exactly the
title slide plus one fallback content slide titled `"Introduction"` whose
single bullet is `"Key points missing from AI output"`. -/
theorem fallback_two_slides (t s ts : String) (h : parse_gemini_structure s = []) :
    create_presentation t s ts =
      [⟨t, ["Generated on " ++ ts]⟩,
       ⟨"Introduction", ["Key points missing from AI output"]⟩] ∧
    (create_presentation t s ts).length = 2 := by
  have hr : renderBullet "Key points missing from AI output" =
      "Key points missing from AI output" := by decide
  have heff : effectiveRecords s =
      [("Introduction", ["Key points missing from AI output"])] := by
    unfold effectiveRecords
    rw [h]
    rfl
  have hmain : create_presentation t s ts =
      [⟨t, ["Generated on " ++ ts]⟩,
       ⟨"Introduction", ["Key points missing from AI output"]⟩] := by
    unfold create_presentation
    rw [heff]
    simp [MAX_SLIDES, hr]
  exact ⟨hmain, by rw [hmain]; rfl⟩

theorem fallback_two_slides_witness :
    parse_gemini_structure "" = [] ∧
    create_presentation "Business Report" "" "12 October 2025" =
      [⟨"Business Report", ["Generated on 12 October 2025"]⟩,
       ⟨"Introduction", ["Key points missing from AI output"]⟩] := by
  refine ⟨by decide, ?_⟩
  exact (fallback_two_slides "Business Report" "" "12 October 2025" (by decide)).1

/-! ### C4 -/

/-- C4: for an outline of 15 parsed records, the deck has exactly 11 slides
(title slide plus the first `MAX_SLIDES = 10` records rendered in order,
the last 5 silently dropped); and in general a deck never has more than
`1 + MAX_SLIDES` slides. -/
theorem truncation_eleven (t s ts : String)
    (h : (parse_gemini_structure s).length = 15) :
    (create_presentation t s ts).length = 11 ∧
    create_presentation t s ts =
      ⟨t, ["Generated on " ++ ts]⟩ ::
        ((parse_gemini_structure s).take MAX_SLIDES).map
          (fun r => Slide.mk r.1 (r.2.map renderBullet)) ∧
    ∀ (u v w : String), (create_presentation u v w).length ≤ 1 + MAX_SLIDES := by
  have hne : ¬(parse_gemini_structure s).isEmpty = true := by
    rw [List.isEmpty_iff]
    intro hnil
    rw [hnil] at h
    simp at h
  have heff : effectiveRecords s = parse_gemini_structure s := by
    unfold effectiveRecords
    rw [if_neg hne]
  have hmain : create_presentation t s ts =
      ⟨t, ["Generated on " ++ ts]⟩ ::
        ((parse_gemini_structure s).take MAX_SLIDES).map
          (fun r => Slide.mk r.1 (r.2.map renderBullet)) := by
    unfold create_presentation
    rw [heff]
  refine ⟨?_, hmain, ?_⟩
  · rw [hmain]
    simp [List.length_take, h, MAX_SLIDES]
  · intro u v w
    have hbound : ((effectiveRecords v).take MAX_SLIDES).length ≤ MAX_SLIDES := by
      rw [List.length_take]
      exact min_le_left _ _
    unfold create_presentation
    simp only [List.length_cons, List.length_map]
    omega

set_option maxRecDepth 8000 in
theorem truncation_eleven_witness :
    (parse_gemini_structure s15).length = 15 ∧
    (create_presentation "T" s15 "12 October 2025").length = 11 := by
  exact ⟨by decide, (truncation_eleven "T" s15 "12 October 2025" (by decide)).1⟩

/-! ### C5 -/

theorem dropPre_none_iff : ∀ (ps cs : List Char),
    dropPre ps cs = none ↔ isPreB ps cs = false := by
  intro ps
  induction ps with
  | nil => intro cs; simp [dropPre, isPreB]
  | cons p ps ih =>
    intro cs
    cases cs with
    | nil => simp [dropPre, isPreB]
    | cons c cs =>
      by_cases hc : c = p
      · simp [dropPre, isPreB, hc, ih cs]
      · simp [dropPre, isPreB, hc]

theorem matchTitleAt_none_iff (cs : List Char) :
    matchTitleAt cs = none ↔ isPreB "**Title:**".data cs = false := by
  unfold matchTitleAt
  cases hd : dropPre "**Title:**".data cs with
  | none => simp [(dropPre_none_iff _ _).mp hd]
  | some r =>
    dsimp only
    constructor
    · intro h; exact absurd h (by simp)
    · intro h
      have := (dropPre_none_iff "**Title:**".data cs).mpr h
      rw [hd] at this
      exact absurd this (by simp)

theorem searchTitle_none_iff : ∀ (cs : List Char),
    searchTitle cs = none ↔ occursIn "**Title:**".data cs = false := by
  intro cs
  induction cs with
  | nil => rw [searchTitle, occursIn]; simp
  | cons c rest ih =>
    rw [searchTitle]
    cases hm : matchTitleAt (c :: rest) with
    | some cap =>
      have hpre : isPreB "**Title:**".data (c :: rest) = true := by
        by_contra hfalse
        have hfb : isPreB "**Title:**".data (c :: rest) = false := by
          cases hb : isPreB "**Title:**".data (c :: rest)
          · rfl
          · exact absurd hb hfalse
        rw [← matchTitleAt_none_iff] at hfb
        rw [hm] at hfb
        exact Option.noConfusion hfb
      rw [occursIn, hpre]
      simp
    | none =>
      have hpre : isPreB "**Title:**".data (c :: rest) = false :=
        (matchTitleAt_none_iff _).mp hm
      rw [occursIn, hpre]
      simpa using ih

/-- The record emitted for header index `i` (0-based), read off from
`parse_gemini_structure`. -/
theorem parse_getD (s : String) (i : Nat) (hi : i < (reFindHeaders s).length) :
    (parse_gemini_structure s).getD i ("", []) =
      (match searchTitle ((reSplitHeaders s).getD (i + 1) "").data with
       | some cap => String.mk (stripEnds pyIsSpace cap)
       | none => "Slide " ++ toString (i + 2),
       (findBullets ((reSplitHeaders s).getD (i + 1) "").data).map String.mk) := by
  unfold parse_gemini_structure
  rw [List.getD_eq_getElem?_getD, List.getElem?_map, List.getElem?_range hi]
  rfl

/-- C5: a header-delimited fragment (fragment `i + 1` of the split, following
header `i`) with no `**Title:**` label anywhere in it yields a record titled
exactly `"Slide {i+2}"`. -/
theorem title_placeholder (s : String) (i : Nat)
    (hi : i < (parse_gemini_structure s).length)
    (hno : occursIn "**Title:**".data ((reSplitHeaders s).getD (i + 1) "").data = false) :
    ((parse_gemini_structure s).getD i ("", [])).1 = "Slide " ++ toString (i + 2) := by
  have hi' : i < (reFindHeaders s).length := by rwa [parse_length_eq] at hi
  rw [parse_getD s i hi']
  rw [(searchTitle_none_iff _).mpr hno]

theorem title_placeholder_witness :
    0 < (parse_gemini_structure "**Slide 1: A**\n* hello").length ∧
    occursIn "**Title:**".data
      ((reSplitHeaders "**Slide 1: A**\n* hello").getD 1 "").data = false ∧
    ((parse_gemini_structure "**Slide 1: A**\n* hello").getD 0 ("", [])).1 = "Slide 2" := by
  refine ⟨by decide, by decide, ?_⟩
  exact (title_placeholder "**Slide 1: A**\n* hello" 0 (by decide) (by decide)).trans
    (by decide)

/-! ### C6 -/

/-- C6 counterexample: when a `**Title:**` label is present but followed by
nothing (or only whitespace), the emitted record's title is the empty
string — the non-emptiness invariant fails. -/
theorem blank_title_cex :
    parse_gemini_structure "**Slide 1: A****Title:**" = [("", [])] := by decide

/-- C6 amended: a record's title is non-empty whenever the fragment either
has no `Title:` label (the `"Slide N"` placeholder is synthesized) or has a
`Title:` label followed by text that does not strip to nothing; a label
followed only by whitespace or nothing yields an empty title. -/
theorem title_nonempty_amended (s : String) (i : Nat)
    (hi : i < (parse_gemini_structure s).length)
    (hcap : ∀ cap, searchTitle ((reSplitHeaders s).getD (i + 1) "").data = some cap →
      stripEnds pyIsSpace cap ≠ []) :
    ((parse_gemini_structure s).getD i ("", [])).1 ≠ "" := by
  have hi' : i < (reFindHeaders s).length := by rwa [parse_length_eq] at hi
  rw [parse_getD s i hi']
  cases hst : searchTitle ((reSplitHeaders s).getD (i + 1) "").data with
  | none =>
    dsimp only
    intro hcontra
    have hlen := congrArg String.length hcontra
    rw [String.length_append] at hlen
    have h6 : String.length "Slide " = 6 := by decide
    have h0 : String.length "" = 0 := by decide
    rw [h6, h0] at hlen
    omega
  | some cap =>
    dsimp only
    intro hcontra
    apply hcap cap hst
    have hdata : (String.mk (stripEnds pyIsSpace cap)).data = ("" : String).data := by
      rw [hcontra]
    simpa using hdata

theorem title_nonempty_amended_witness :
    ((parse_gemini_structure "**Slide 1: A**\n**Title:** Hello").getD 0 ("", [])).1 ≠ "" := by
  apply title_nonempty_amended _ 0 (by decide)
  intro cap hcap
  have hs : searchTitle
      ((reSplitHeaders "**Slide 1: A**\n**Title:** Hello").getD 1 "").data =
      some "Hello".data := by decide
  rw [hs] at hcap
  have hc := Option.some.inj hcap
  rw [← hc]
  decide

/-! ### C7 -/

theorem data_append (a b : String) : (a ++ b).data = a.data ++ b.data := rfl

theorem findBulletsF_nil : ∀ (fuel : Nat), findBulletsF fuel [] = []
  | 0 => rfl
  | _ + 1 => rfl

theorem findBulletsF_succ (fuel : Nat) (cs : List Char) :
    findBulletsF (fuel + 1) cs =
      match matchBulletAt cs with
      | some (cap, r) => cap :: findBulletsF fuel r
      | none =>
        match cs with
        | [] => []
        | _ :: rest => findBulletsF fuel rest := rfl

theorem findBulletsF_irrel : ∀ (f1 f2 : Nat) (cs : List Char),
    cs.length ≤ f1 → cs.length ≤ f2 → findBulletsF f1 cs = findBulletsF f2 cs := by
  intro f1
  induction f1 with
  | zero =>
    intro f2 cs h1 _
    have : cs = [] := by
      cases cs with
      | nil => rfl
      | cons c cs => simp at h1
    subst this
    rw [findBulletsF_nil, findBulletsF_nil]
  | succ f1 ih =>
    intro f2 cs h1 h2
    cases f2 with
    | zero =>
      have : cs = [] := by
        cases cs with
        | nil => rfl
        | cons c cs => simp at h2
      subst this
      rw [findBulletsF_nil, findBulletsF_nil]
    | succ f2 =>
      rw [findBulletsF_succ, findBulletsF_succ]
      cases hm : matchBulletAt cs with
      | some pr =>
        cases pr with
        | mk cap r =>
          have hr := matchBulletAt_shrink hm
          dsimp only
          rw [ih f2 r (by omega) (by omega)]
      | none =>
        cases cs with
        | nil => rfl
        | cons c rest =>
          simp only [List.length_cons] at h1 h2
          dsimp only
          rw [ih f2 rest (by omega) (by omega)]

theorem findBullets_match {cs cap r : List Char}
    (h : matchBulletAt cs = some (cap, r)) :
    findBullets cs = cap :: findBullets r := by
  cases cs with
  | nil => rw [matchBulletAt] at h; exact Option.noConfusion h
  | cons c cs' =>
    show findBulletsF (cs'.length + 1) (c :: cs') = _
    rw [findBulletsF_succ, h]
    dsimp only
    have hr := matchBulletAt_shrink h
    simp only [List.length_cons] at hr
    rw [findBulletsF_irrel cs'.length r.length r (by omega) (by omega)]
    rfl

theorem findBullets_nomatch {c : Char} {cs : List Char}
    (h : matchBulletAt (c :: cs) = none) :
    findBullets (c :: cs) = findBullets cs := by
  show findBulletsF (cs.length + 1) (c :: cs) = _
  rw [findBulletsF_succ, h]
  rfl

theorem takeWhile_no_nl : ∀ (l : List Char), (∀ c ∈ l, ¬ c = '\n') → ∀ (t : List Char),
    (l ++ '\n' :: t).takeWhile (fun x => !(x == '\n')) = l := by
  intro l
  induction l with
  | nil =>
    intro _ t
    rw [List.nil_append, List.takeWhile_cons_of_neg (by simp)]
  | cons c l ih =>
    intro h t
    have hc := h c (List.mem_cons_self _ _)
    rw [List.cons_append, List.takeWhile_cons_of_pos (by simp [hc]),
      ih (fun x hx => h x (List.mem_cons_of_mem _ hx)) t]

theorem dropWhile_no_nl : ∀ (l : List Char), (∀ c ∈ l, ¬ c = '\n') → ∀ (t : List Char),
    (l ++ '\n' :: t).dropWhile (fun x => !(x == '\n')) = '\n' :: t := by
  intro l
  induction l with
  | nil =>
    intro _ t
    rw [List.nil_append, List.dropWhile_cons_of_neg (by simp)]
  | cons c l ih =>
    intro h t
    have hc := h c (List.mem_cons_self _ _)
    rw [List.cons_append, List.dropWhile_cons_of_pos (by simp [hc]),
      ih (fun x hx => h x (List.mem_cons_of_mem _ hx)) t]

/-- The bullet regex `\*\s+(.*)` matched against a well-formed bullet line
`"* " ++ b ++ "\n" ++ ...`: the capture is exactly `b`. -/
theorem matchBulletAt_line (b t : List Char) (hnl : ∀ c ∈ b, ¬ c = '\n')
    (hhead : pyIsSpace (b.headD ' ') = false) :
    matchBulletAt ('*' :: ' ' :: (b ++ '\n' :: t)) = some (b, '\n' :: t) := by
  cases b with
  | nil => simp [pyIsSpace] at hhead
  | cons b0 brest =>
    have hb0 : pyIsSpace b0 = false := by simpa using hhead
    rw [matchBulletAt, if_pos rfl]
    have htw : ((' ' : Char) :: ((b0 :: brest) ++ '\n' :: t)).takeWhile pyIsSpace
        = [' '] := by
      rw [List.takeWhile_cons_of_pos (by decide), List.cons_append,
        List.takeWhile_cons_of_neg (by simp [hb0])]
    have hdw : ((' ' : Char) :: ((b0 :: brest) ++ '\n' :: t)).dropWhile pyIsSpace
        = (b0 :: brest) ++ '\n' :: t := by
      rw [List.dropWhile_cons_of_pos (by decide), List.cons_append,
        List.dropWhile_cons_of_neg (by simp [hb0]), ← List.cons_append]
    rw [htw]
    dsimp only
    rw [hdw, takeWhile_no_nl _ hnl t, dropWhile_no_nl _ hnl t]

theorem findBullets_bulletLines : ∀ (bodies : List String),
    (∀ b ∈ bodies, (∀ c ∈ b.data, ¬ c = '\n') ∧ pyIsSpace (b.data.headD ' ') = false) →
    findBullets (bulletLines bodies).data = bodies.map String.data := by
  intro bodies
  induction bodies with
  | nil => intro _; rfl
  | cons b bs ih =>
    intro h
    obtain ⟨hnl, hhead⟩ := h b (List.mem_cons_self _ _)
    have htail := fun x hx => h x (List.mem_cons_of_mem _ hx)
    have hdata : (bulletLines (b :: bs)).data =
        '*' :: ' ' :: (b.data ++ '\n' :: (bulletLines bs).data) := by
      show ("* " ++ b ++ "\n" ++ bulletLines bs).data = _
      rw [data_append, data_append, data_append]
      simp
    rw [hdata,
      findBullets_match (matchBulletAt_line b.data (bulletLines bs).data hnl hhead),
      findBullets_nomatch (by rw [matchBulletAt, if_neg (by decide)]),
      ih htail, List.map_cons]

/-- C7: bullet extraction preserves the order of appearance within a
fragment (a fragment made of `"* "`-prefixed lines parses to exactly its
bodies, in order), and rendering trims the leading bullet glyphs and
whitespace: the input line `"* - Revenue grew 10%"` is captured as
`"- Revenue grew 10%"` and rendered as `"Revenue grew 10%"`, as shown
end-to-end on a full deck. -/
theorem bullets_order_strip (bodies : List String)
    (hb : ∀ b ∈ bodies, (∀ c ∈ b.data, ¬ c = '\n') ∧ pyIsSpace (b.data.headD ' ') = false) :
    findBullets (bulletLines bodies).data = bodies.map String.data ∧
    findBullets "* - Revenue grew 10%".data = ["- Revenue grew 10%".data] ∧
    renderBullet "- Revenue grew 10%" = "Revenue grew 10%" ∧
    create_presentation "T" "**Slide 1: A**\n* - Revenue grew 10%" "d" =
      [⟨"T", ["Generated on d"]⟩, ⟨"Slide 2", ["Revenue grew 10%"]⟩] := by
  exact ⟨findBullets_bulletLines bodies hb, by decide, by decide, by decide⟩

theorem bullets_order_strip_witness :
    findBullets (bulletLines ["- Revenue grew 10%", "second point"]).data =
      ["- Revenue grew 10%".data, "second point".data] ∧
    renderBullet "- Revenue grew 10%" = "Revenue grew 10%" := by
  have h := bullets_order_strip ["- Revenue grew 10%", "second point"] (by decide)
  exact ⟨h.1, h.2.2.1⟩

/-! ### C8 -/

set_option maxRecDepth 16000 in
/-- C8: for a model reply that exactly follows the markup requested by the
generation prompt, each slide's bullet list contains its own bolded
`Title:`/`Subtitle:`/`Bullet Points:` label lines in addition to the real
bullets — in particular every record's bullet list contains the line
`"**Title:** " ++ title`. -/
theorem labels_collected_as_bullets :
    parse_gemini_structure conformingReply =
      [("\"Business Report\"",
        ["**Title:** \"Business Report\"", "**Subtitle:** \"[1-line summary]\""]),
       ("\"Intro title\"",
        ["**Title:** \"Intro title\"", "**Bullet Points:**", "Bullet 1", "Bullet 2"]),
       ("\"Findings\"",
        ["**Title:** \"Findings\"", "**Bullet Points:**", "Revenue grew", "Costs fell"]),
       ("\"Risks\"", ["**Title:** \"Risks\"", "**Bullet Points:**", "Churn"]),
       ("\"Conclusion\"", ["**Title:** \"Conclusion\"", "**Bullet Points:**", "Invest"])] ∧
    ∀ rec ∈ parse_gemini_structure conformingReply,
      ("**Title:** " ++ rec.1) ∈ rec.2 := by
  constructor <;> decide

set_option maxRecDepth 16000 in
theorem labels_collected_as_bullets_witness :
    ("**Title:** " ++ "\"Intro title\"") ∈
      (("\"Intro title\"" : String),
        (["**Title:** \"Intro title\"", "**Bullet Points:**", "Bullet 1", "Bullet 2"] :
          List String)).2 :=
  labels_collected_as_bullets.2
    ("\"Intro title\"",
      ["**Title:** \"Intro title\"", "**Bullet Points:**", "Bullet 1", "Bullet 2"])
    (by decide)

/-! ### C9 -/

/-- C9 counterexample: on the exit path where reading the serialized file
back fails (`open`/`read` raises after `create_presentation` returned a
path), `os.unlink` at ppt_gen.py line 204 is never reached and the
temporary file is left behind — it is not deleted on all exit paths. -/
theorem tempfile_leak_cex :
    generate_button_flow true false true "deck.pptx" = ["deck.pptx"] := by decide

/-- C9 amended: the temporary file is deleted only on the path where saving,
reading the bytes back, and unlinking all succeed; on every other exit path
— including the one where reading the serialized file back fails — the file
is left behind. -/
theorem tempfile_cleanup_exact (saveOk readOk unlinkOk : Bool) (path : String) :
    generate_button_flow saveOk readOk unlinkOk path =
      if saveOk && readOk && unlinkOk then [] else [path] := by
  cases saveOk <;> cases readOk <;> cases unlinkOk <;>
    simp [generate_button_flow, create_presentation_effects]

/-! ### C10 -/

/-- C10 counterexample: two `create_presentation` calls with identical
(title, outline text, max-slide) inputs but made on different days embed
different `datetime.now()` dates in the title slide's subtitle, so the
decks' textual content differs — the claim fails as stated. -/
theorem assemble_date_cex :
    create_presentation "Business Report" "" "12 October 2025" ≠
      create_presentation "Business Report" "" "13 October 2025" := by decide

/-- C10 amended: two calls with identical (title, outline text, max-slide)
inputs produce decks with the same slide count, identical content slides and
identical title-slide main text; the title-slide subtitle embeds the
generation date, so the decks are fully identical exactly when both calls
observe the same formatted date. -/
theorem assemble_deterministic (t s ts ts' : String) :
    (create_presentation t s ts).length = (create_presentation t s ts').length ∧
    (create_presentation t s ts).tail = (create_presentation t s ts').tail ∧
    (create_presentation t s ts).headD ⟨"", []⟩ = ⟨t, ["Generated on " ++ ts]⟩ ∧
    (ts = ts' → create_presentation t s ts = create_presentation t s ts') := by
  refine ⟨by simp [create_presentation], rfl, rfl, ?_⟩
  intro h
  rw [h]

theorem assemble_deterministic_witness :
    create_presentation "T" "**Slide 1: A**" "12 October 2025" =
      create_presentation "T" "**Slide 1: A**" "12 October 2025" :=
  (assemble_deterministic "T" "**Slide 1: A**" "12 October 2025"
    "12 October 2025").2.2.2 rfl

end PptGen
